import Mathlib

/-!
Verification of the topographic-profiles repository
(`profile-generator.py`, `profile-viewer.py`).

The elevation-signal pipeline (missing-value interpolation, sea-level
clamping, moving-average smoothing, display-frame computation and pixel
projection) is embedded over `ℚ`; Python float arithmetic is modelled by
exact rational arithmetic.  The spherical geometry (`dest_point`,
cross-section generation) is embedded over `ℝ` since it uses
transcendental functions.  Python `ZeroDivisionError` is modelled by
`Option`-valued division (`pydivQ` / `pydivR`): a run that raises is
`none`.
-/

/-- Check performed by the `__main__` pipeline loop of
`profile-generator.py` (line 576): the run for one cross-section raises
(`raise Exception("Failed to fetch elevation data")`) exactly when this
returns `true`.  Source: `if not elevation_data or any(e is None for e in
elevation_data)`. -/
def pipeline_aborts (elevation_data : List (Option ℚ)) : Bool :=
  elevation_data.isEmpty || elevation_data.any (fun e => e.isNone)

/-- Value stored at index `j` of a list of optional elevations, with junk
default `0` when out of range or absent (used only where the entry is
known to be present). -/
def valAt (a : List (Option ℚ)) (j : ℕ) : ℚ :=
  ((a[j]?).join).getD 0

/-- Whether index `j` of `a` holds a present (non-`None`) elevation. -/
def isVal (a : List (Option ℚ)) (j : ℕ) : Bool :=
  ((a[j]?).join).isSome

/-- Left scan of `interpolate_missing` (`profile-generator.py` lines
50-52): starting from `i - 1`, walk down while the entry is `None`;
result is the index found, or `none` when the scan walks past index 0
(Python's `left` becoming `-1`). -/
def findValidLeft (a : List (Option ℚ)) : ℕ → Option ℕ
  | 0 => none
  | j + 1 => if isVal a j then some j else findValidLeft a j

/-- Offset of the first present entry of a list of optional elevations,
or `none` when every entry is absent. -/
def firstValidFrom : List (Option ℚ) → Option ℕ
  | [] => none
  | o :: rest => if o.isSome then some 0 else (firstValidFrom rest).map (· + 1)

/-- Right scan of `interpolate_missing` (`profile-generator.py` lines
53-55): starting from `i + 1`, walk up while the entry is `None`; result
is the index found, or `none` when the scan reaches the end of the list
(Python's `right` reaching `n`). -/
def findValidRight (a : List (Option ℚ)) (i : ℕ) : Option ℕ :=
  (firstValidFrom (a.drop (i + 1))).map (fun k => i + 1 + k)

/-- Body of the `for i, v in enumerate(new_data)` loop of
`interpolate_missing` (`profile-generator.py` lines 47-66) at index `i`:
when the entry is `None`, scan for valid neighbours in the current
(partially repaired) array and fill the entry; otherwise leave the array
unchanged. -/
def fillStep (a : List (Option ℚ)) (i : ℕ) : List (Option ℚ) :=
  match a[i]? with
  | some none =>
    let v : ℚ :=
      match findValidLeft a i, findValidRight a i with
      | some l, some r =>
          valAt a l + (valAt a r - valAt a l) * ((i : ℚ) - (l : ℚ)) / ((r : ℚ) - (l : ℚ))
      | some l, none => valAt a l
      | none, some r => valAt a r
      | none, none => 0
    a.set i (some v)
  | _ => a

/-- `interpolate_missing` of `profile-generator.py` (lines 44-67): copy
the data and repair every `None` entry in index order. -/
def interpolate_missing (data : List (Option ℚ)) : List (Option ℚ) :=
  (List.range data.length).foldl fillStep data

/-- Per-index description of `interpolate_missing` following the spec's
words (spec 4.3 item 1): for an absent sample, find the nearest valid
neighbours of the input left and right; interpolate linearly by
index-fraction when both exist, copy the single one when only one
exists, and use `0` when the input holds no valid value at all. -/
def interpolateSpec (data : List (Option ℚ)) (i : ℕ) : ℚ :=
  match (data[i]?).join with
  | some v => v
  | none =>
    match findValidLeft data i, findValidRight data i with
    | some l, some r =>
        valAt data l + (valAt data r - valAt data l) * ((i : ℚ) - (l : ℚ)) / ((r : ℚ) - (l : ℚ))
    | some l, none => valAt data l
    | none, some r => valAt data r
    | none, none => 0

/-- Sea-level clamp of `show_elevation_profile`
(`profile-generator.py` line 70): `data = [max(0, elev) for elev in data]`. -/
def clamp_sea_level (l : List ℚ) : List ℚ :=
  l.map (fun e => max 0 e)

/-- Bridge from the optional-elevation representation to plain numbers.
After `interpolate_missing` every entry is present (proved below), so the
default `0` is never used; Python needs no such step since the repaired
list simply holds floats. -/
def unwrapElevations (l : List (Option ℚ)) : List ℚ :=
  l.map (fun o => o.getD 0)

/-- Moving average `smooth` of `profile-viewer.py` (lines 43-50), default
window 3: each output sample is the mean of the slice
`data[max(0, i - window // 2) : min(len(data), i + window // 2 + 1)]`
divided by the slice's true length.  `ℕ` subtraction `i - half` equals
Python's `max(0, i - half)`. -/
def smooth (data : List ℚ) (window : ℕ := 3) : List ℚ :=
  let half := window / 2
  (List.range data.length).map (fun i =>
    let left := i - half
    let right := min data.length (i + half + 1)
    (((data.drop left).take (right - left)).sum) / ((right - left : ℕ) : ℚ))

/-- Moving average `smooth_elevation` of `profile-generator.py`
(lines 73-82), default window 5: identical loop to `smooth` above, but
guarded by `if window <= 1: return data[:]`. -/
def smooth_elevation (data : List ℚ) (window : ℕ := 5) : List ℚ :=
  if window ≤ 1 then data
  else
    let half := window / 2
    (List.range data.length).map (fun i =>
      let left := i - half
      let right := min data.length (i + half + 1)
      (((data.drop left).take (right - left)).sum) / ((right - left : ℕ) : ℚ))

/-- Mean of the centred window of width `w` around index `i`, truncated
at the sequence boundaries, divided by the true number of included
samples (the spec's description of `moving_average`, spec 4.3 item 3),
stated independently with a `Finset` interval. -/
def windowMeanSpec (data : List ℚ) (w i : ℕ) : ℚ :=
  let win := Finset.Ico (i - w / 2) (min data.length (i + w / 2 + 1))
  (∑ j ∈ win, data.getD j 0) / (win.card : ℚ)

/-- Full preprocessing chain of `show_elevation_profile`
(`profile-generator.py` lines 69-85): interpolate missing values, clamp
below-sea-level values to 0, then smooth with window 3 (the call site's
window). -/
def preprocess (data : List (Option ℚ)) : List ℚ :=
  smooth_elevation (clamp_sea_level (unwrapElevations (interpolate_missing data))) 3

/-- Python `max(data)` over a non-empty list (left fold); junk value `0`
on the empty list, where Python would raise. -/
def maxListQ : List ℚ → ℚ
  | [] => 0
  | x :: xs => xs.foldl max x

/-- Python `int()` applied to a float: truncation toward zero. -/
def pytrunc (q : ℚ) : ℤ :=
  if 0 ≤ q then ⌊q⌋ else ⌈q⌉

/-- Python float division over `ℚ`, `none` modelling `ZeroDivisionError`. -/
def pydivQ (a b : ℚ) : Option ℚ :=
  if b = 0 then none else some (a / b)

/-- Display-frame record assembled by `save_display_coordinates_csv` /
`show_elevation_profile` (spec's `DisplayFrame`). -/
structure DisplayFrame where
  width : ℤ
  height : ℤ
  margin : ℤ
  scale : ℚ
deriving DecidableEq

/-- Frame computation of `save_display_coordinates_csv`
(`profile-generator.py` lines 455-468); `show_elevation_profile`
(lines 86-101) computes the same quantities except that it lacks the
`if data else 100` guard on `max`.  `max_distance = length_km * 1000`
followed by `max_distance / 1000` is the identity over `ℚ`. -/
def compute_frame (data : List ℚ) (length_km : ℚ) : Option DisplayFrame :=
  let max_elev : ℚ := if data.isEmpty then 100 else maxListQ data
  let margin : ℤ := 40
  let min_elev : ℚ := 0
  let elev_range : ℚ := max_elev - min_elev + 1
  let FIXED_WIDTH : ℤ := 1280
  let inner_width : ℤ := FIXED_WIDTH - 2 * margin
  let max_distance_km : ℚ := length_km * 1000 / 1000
  let elev_range_km : ℚ := elev_range / 1000
  match pydivQ (inner_width : ℚ) max_distance_km with
  | none => none
  | some scale =>
    let plot_height : ℤ := pytrunc (elev_range_km * scale)
    some { width := FIXED_WIDTH, height := plot_height + 2 * margin,
           margin := margin, scale := scale }

/-- Pixel projection of `save_display_coordinates_csv`
(`profile-generator.py` lines 490-491) and `show_elevation_profile`
(lines 140-141): `x = margin + dist_km * scale`,
`y = HEIGHT - margin - ((elev - min_elev) / 1000) * scale` with
`min_elev = 0`. -/
def project (f : DisplayFrame) (dist_km elevation_m : ℚ) : ℚ × ℚ :=
  ((f.margin : ℚ) + dist_km * f.scale,
   (f.height : ℚ) - (f.margin : ℚ) - (elevation_m - 0) / 1000 * f.scale)

/-- Degrees-to-radians conversion (`math.radians`). -/
noncomputable def radians (x : ℝ) : ℝ := x * Real.pi / 180

/-- Radians-to-degrees conversion (`math.degrees`). -/
noncomputable def degrees (x : ℝ) : ℝ := x * 180 / Real.pi

/-- `math.atan2 y x`, modelled as the argument of the complex number
`x + y i` (both give the angle of `(x, y)` in `(-π, π]`). -/
noncomputable def atan2 (y x : ℝ) : ℝ :=
  Complex.arg (x + y * Complex.I)

/-- `dest_point` of `profile-generator.py` (lines 241-258; the local
helper inside `generate_cross_section_points`, lines 217-230, is
character-identical): spherical direct geodesic with Earth radius
6371 km. -/
noncomputable def dest_point (lat lon bearing_deg dist_km : ℝ) : ℝ × ℝ :=
  let R : ℝ := 6371.0
  let lat1 := radians lat
  let lon1 := radians lon
  let bearing := radians bearing_deg
  let d_div_r := dist_km / R
  let lat2 := Real.arcsin (Real.sin lat1 * Real.cos d_div_r +
    Real.cos lat1 * Real.sin d_div_r * Real.cos bearing)
  let lon2 := lon1 + atan2 (Real.sin bearing * Real.sin d_div_r * Real.cos lat1)
    (Real.cos d_div_r - Real.sin lat1 * Real.sin lat2)
  (degrees lat2, degrees lon2)

/-- Python float division over `ℝ`, `none` modelling `ZeroDivisionError`. -/
noncomputable def pydivR (a b : ℝ) : Option ℝ :=
  if b = 0 then none else some (a / b)

/-- `generate_line_points` of `profile-generator.py` (lines 185-198):
`n` points linearly interpolated between `(lat1, lon1)` and
`(lat2, lon2)`; the divisions `... * i / (n - 1)` raise
`ZeroDivisionError` when `n = 1` (and are never evaluated when `n = 0`,
where Python returns the empty list). -/
noncomputable def generate_line_points (lat1 lon1 lat2 lon2 : ℝ) (n : ℕ) :
    Option (List (ℝ × ℝ)) :=
  (List.range n).mapM (fun (i : ℕ) => do
    let dlat ← pydivR ((lat2 - lat1) * (i : ℝ)) ((n : ℝ) - 1)
    let dlon ← pydivR ((lon2 - lon1) * (i : ℝ)) ((n : ℝ) - 1)
    pure (lat1 + dlat, lon1 + dlon))

/-- `generate_cross_section_points` of `profile-generator.py`
(lines 201-238): endpoints `length_km / 2` away from the centre at
bearings `move_bearing_deg ∓ 90`, then linear interpolation of `n`
points between them. -/
noncomputable def generate_cross_section_points
    (center_lat center_lon move_bearing_deg length_km : ℝ) (n : ℕ) :
    Option (List (ℝ × ℝ)) :=
  let half := length_km / 2
  let lp := dest_point center_lat center_lon (move_bearing_deg - 90) half
  let rp := dest_point center_lat center_lon (move_bearing_deg + 90) half
  generate_line_points lp.1 lp.2 rp.1 rp.2 n

theorem pipeline_aborts_iff (elevs : List (Option ℚ)) :
    pipeline_aborts elevs = true ↔ elevs = [] ∨ ∃ e ∈ elevs, e = none := by
  simp [pipeline_aborts, List.isEmpty_iff, List.any_eq_true, Option.isNone_iff_eq_none]

/-- C1: the claim states the run fails with `DataUnavailable` exactly when
every requested elevation is absent, and that partial data flows through
without failing.  Counterexample: for the partial batch
`[some 100, none]` (one present elevation), the pipeline check of
`profile-generator.py` line 576 still aborts the run even though a
present elevation exists. -/
theorem C1_counterexample :
    pipeline_aborts [some 100, none] = true ∧
      ([some 100, none] : List (Option ℚ)).any (fun e => e.isSome) = true := by
  exact ⟨by decide, by decide⟩

/-- C1 (amended): the run for one cross-section aborts exactly when the
fetched elevation list is empty or at least one requested elevation is
absent; only fully-present data flows through. -/
theorem C1_amended (elevs : List (Option ℚ)) :
    pipeline_aborts elevs = true ↔ elevs = [] ∨ ∃ e ∈ elevs, e = none :=
  pipeline_aborts_iff elevs

/-- C9: for a fixed frame with positive scale, `project` is strictly
increasing in `dist_km` on the x coordinate and strictly decreasing in
`elevation_m` on the y coordinate. -/
theorem C9_project_monotone (f : DisplayFrame) (hs : 0 < f.scale)
    (d1 d2 e1 e2 dist elev : ℚ) :
    (d1 < d2 → (project f d1 elev).1 < (project f d2 elev).1) ∧
    (e1 < e2 → (project f dist e2).2 < (project f dist e1).2) := by
  constructor
  · intro h
    simp only [project]
    have := mul_lt_mul_of_pos_right h hs
    linarith
  · intro h
    simp only [project]
    have h1 : (e1 - 0) / 1000 < (e2 - 0) / 1000 := by linarith
    have := mul_lt_mul_of_pos_right h1 hs
    linarith

/-- Witness for C9 at the concrete frame produced for a 10 km section of
elevations up to 1000 m. -/
theorem C9_project_monotone_witness :
    (project ⟨1280, 200, 40, 120⟩ 1 0).1 < (project ⟨1280, 200, 40, 120⟩ 2 0).1 ∧
    (project ⟨1280, 200, 40, 120⟩ 1 5).2 < (project ⟨1280, 200, 40, 120⟩ 1 0).2 :=
  ⟨(C9_project_monotone ⟨1280, 200, 40, 120⟩ (by norm_num) 1 2 0 5 1 0).1 (by norm_num),
   (C9_project_monotone ⟨1280, 200, 40, 120⟩ (by norm_num) 1 2 0 5 1 0).2 (by norm_num)⟩

theorem sliceSum_eq (data : List ℚ) :
    ∀ (m lo : ℕ), lo + m ≤ data.length →
      ((data.drop lo).take m).sum = ∑ t ∈ Finset.range m, data.getD (lo + t) 0 := by
  intro m
  induction m with
  | zero => intro lo _; simp
  | succ k ih =>
    intro lo h
    have hlo : lo < data.length := by omega
    rw [List.drop_eq_getElem_cons hlo, List.take_succ_cons, List.sum_cons,
      ih (lo + 1) (by omega), Finset.sum_range_succ']
    have h0 : data.getD (lo + 0) 0 = data[lo] := by
      simpa using List.getD_eq_getElem data 0 hlo
    rw [h0]
    have hcongr : ∀ t ∈ Finset.range k, data.getD (lo + 1 + t) 0 = data.getD (lo + (t + 1)) 0 := by
      intro t _
      have : lo + 1 + t = lo + (t + 1) := by omega
      rw [this]
    rw [Finset.sum_congr rfl hcongr]
    ring

theorem smooth_getElem (data : List ℚ) (w i : ℕ) :
    (smooth data w)[i]? =
      if i < data.length then some (windowMeanSpec data w i) else none := by
  rw [smooth]
  split_ifs with h
  · rw [List.getElem?_map, List.getElem?_range h]
    simp only [Option.map_some']
    congr 1
    rw [windowMeanSpec]
    have hlohi : (i - w / 2) ≤ min data.length (i + w / 2 + 1) := by omega
    have hhin : min data.length (i + w / 2 + 1) ≤ data.length := by omega
    rw [Finset.sum_Ico_eq_sum_range, Nat.card_Ico,
      ← sliceSum_eq data _ _ (by omega)]
  · rw [List.getElem?_map]
    have : (List.range data.length)[i]? = none := by
      rw [List.getElem?_eq_none]
      simpa using h
    rw [this]
    simp only [Option.map_none']

theorem smooth_length (data : List ℚ) (w : ℕ) :
    (smooth data w).length = data.length := by
  simp [smooth]

theorem smooth_of_window_le_one (data : List ℚ) (w : ℕ) (hw : w ≤ 1) :
    smooth data w = data := by
  have hhalf : w / 2 = 0 := by omega
  apply List.ext_getElem?
  intro i
  rcases lt_or_ge i data.length with h | h
  · rw [smooth_getElem, if_pos h, windowMeanSpec]
    rw [hhalf]
    have hmin : min data.length (i + 0 + 1) = i + 1 := by omega
    rw [hmin]
    simp only [Nat.sub_zero]
    rw [Finset.sum_Ico_eq_sum_range, Nat.card_Ico]
    have : i + 1 - i = 1 := by omega
    rw [this, Finset.sum_range_one, Nat.add_zero,
      List.getD_eq_getElem data 0 h]
    norm_num
  · rw [smooth_getElem, if_neg (by omega), eq_comm, List.getElem?_eq_none]
    exact h

theorem smooth_elevation_eq (data : List ℚ) (w : ℕ) :
    smooth_elevation data w = smooth data w := by
  by_cases h : w ≤ 1
  · rw [smooth_of_window_le_one data w h, smooth_elevation, if_pos h]
  · rw [smooth_elevation, if_neg h, smooth]

/-- C3: `moving_average` (code: `smooth` in `profile-viewer.py`, the
identical loop `smooth_elevation` in `profile-generator.py`): every
output sample is the mean of the centred window of width `w` truncated
at the boundaries, divided by the true included count; `w ≤ 1` is an
identity copy; length is preserved; the two implementations agree; and
`moving_average([10, 20, 30, 40], window=3)` yields `[15, 20, 30, 35]`. -/
theorem C3_moving_average :
    (∀ (data : List ℚ) (w : ℕ),
      (smooth data w).length = data.length ∧
      (∀ i, (smooth data w)[i]? =
        if i < data.length then some (windowMeanSpec data w i) else none) ∧
      (w ≤ 1 → smooth data w = data) ∧
      smooth_elevation data w = smooth data w) ∧
    smooth [10, 20, 30, 40] 3 = [15, 20, 30, 35] := by
  constructor
  · intro data w
    exact ⟨smooth_length data w, smooth_getElem data w,
      smooth_of_window_le_one data w, smooth_elevation_eq data w⟩
  · have h4 : List.range 4 = [0, 1, 2, 3] := by decide
    simp only [smooth, List.length_cons, List.length_nil]
    norm_num [h4]

/-- Witness for C3, discharging the `w ≤ 1` hypothesis at window 0. -/
theorem C3_moving_average_witness :
    smooth [(7 : ℚ), 9] 0 = [7, 9] ∧
      smooth_elevation [(7 : ℚ), 9] 5 = smooth [(7 : ℚ), 9] 5 :=
  ⟨(C3_moving_average.1 [7, 9] 0).2.2.1 (by norm_num),
   (C3_moving_average.1 [7, 9] 5).2.2.2⟩

theorem compute_frame_spec (data : List ℚ) (d : ℚ) (hd : d ≠ 0) :
    compute_frame data d = some
      { width := 1280,
        height := pytrunc (((if data.isEmpty then 100 else maxListQ data) - 0 + 1)
          / 1000 * (1200 / d)) + 2 * 40,
        margin := 40, scale := 1200 / d } := by
  simp only [compute_frame, pydivQ]
  have h1 : d * 1000 / 1000 = d := by field_simp
  rw [h1, if_neg hd]
  norm_num

/-- C4: the claim states `plot_height_px = round(elev_range_km · scale)`.
Counterexample: for elevations `[0, 120]` and `distance_km = 7` the code
truncates (`int()`), producing frame height `20 + 80 = 100`, while the
claimed rounding formula gives `21 + 80 = 101`. -/
theorem C4_counterexample :
    (compute_frame [0, 120] 7).map DisplayFrame.height = some 100 ∧
    (100 : ℤ) ≠ round (((120 : ℚ) - 0 + 1) / 1000 * ((1280 - 2 * 40) / 7)) + 2 * 40 := by
  constructor
  · rw [compute_frame_spec [0, 120] 7 (by norm_num), Option.map_some']
    have hif : (if ([0, 120] : List ℚ).isEmpty then (100 : ℚ) else maxListQ [0, 120]) = 120 := by
      norm_num [maxListQ]
    rw [hif]
    have h20 : pytrunc (((120 : ℚ) - 0 + 1) / 1000 * (1200 / 7)) = 20 := by
      rw [pytrunc, if_pos (by norm_num)]
      norm_num [Int.floor_eq_iff]
    rw [h20]
    norm_num
  · have hr : round (((120 : ℚ) - 0 + 1) / 1000 * ((1280 - 2 * 40) / 7)) + 2 * 40 = (101 : ℤ) := by
      norm_num [round_eq, Int.floor_eq_iff]
    rw [hr]
    norm_num

/-- C4 (amended): for non-empty elevations and `distance_km > 0`,
`compute_frame` yields `scale = (1280 - 2·40)/distance_km`, a fixed
width of 1280, and `height = trunc(elev_range_km · scale) + 2·40` where
`elev_range_km = (max(elevations) - 0 + 1)/1000` with baseline 0 —
truncation toward zero (Python `int()`), not rounding; and the single
`scale` moves both axes identically: one km of distance and one km
(1000 m) of elevation each span exactly `scale` pixels under `project`. -/
theorem C4_amended (x : ℚ) (xs : List ℚ) (d : ℚ) (hd : 0 < d) :
    compute_frame (x :: xs) d = some
      { width := 1280,
        height := pytrunc ((maxListQ (x :: xs) - 0 + 1) / 1000 * (1200 / d)) + 2 * 40,
        margin := 40, scale := 1200 / d } ∧
    (∀ (fr : DisplayFrame) (dist elev : ℚ),
      (project fr (dist + 1) elev).1 - (project fr dist elev).1 = fr.scale ∧
      (project fr dist elev).2 - (project fr dist (elev + 1000)).2 = fr.scale) := by
  constructor
  · rw [compute_frame_spec (x :: xs) d (ne_of_gt hd)]
    simp
  · intro fr dist elev
    constructor <;> (simp only [project]; ring)

/-- Witness for C4 (amended) at elevations `[0, 120]`, distance 7 km. -/
theorem C4_amended_witness :
    compute_frame [(0 : ℚ), 120] 7 = some
      { width := 1280,
        height := pytrunc ((maxListQ [(0 : ℚ), 120] - 0 + 1) / 1000 * (1200 / 7)) + 2 * 40,
        margin := 40, scale := 1200 / 7 } :=
  (C4_amended 0 [120] 7 (by norm_num)).1

/-- C6: the claim states `compute_frame` fails with `DegenerateInput`
when the elevation sequence has fewer than 2 points.  Counterexample:
the single-point sequence `[5]` with distance 10 km succeeds (the code
performs no such check). -/
theorem C6_counterexample :
    (compute_frame [5] 10).isSome = true ∧ ([5] : List ℚ).length < 2 := by
  constructor
  · rw [compute_frame_spec [5] 10 (by norm_num)]
    rfl
  · norm_num

/-- C6 (amended): the frame computation of
`save_display_coordinates_csv` fails (Python `ZeroDivisionError` at
`scale = inner_width / max_distance_km`) exactly when `distance_km = 0`;
it succeeds for every elevation sequence (including empty and
single-point ones, via the `max(data) if data else 100` guard) and every
non-zero distance, including negative ones. -/
theorem C6_amended (data : List ℚ) (d : ℚ) :
    compute_frame data d = none ↔ d = 0 := by
  constructor
  · intro h
    by_contra hd
    rw [compute_frame_spec data d hd] at h
    exact Option.noConfusion h
  · intro h
    subst h
    simp [compute_frame, pydivQ]

theorem isVal_of_missing (a : List (Option ℚ)) (m : ℕ) (h : a[m]? = some none) :
    isVal a m = false := by
  simp [isVal, h]

theorem isVal_of_present (a : List (Option ℚ)) (m : ℕ) (v : ℚ)
    (h : a[m]? = some (some v)) : isVal a m = true := by
  simp [isVal, h]

theorem valAt_of_getElem (a : List (Option ℚ)) (j : ℕ) (v : ℚ)
    (h : a[j]? = some (some v)) : valAt a j = v := by
  simp [valAt, h]

theorem findValidLeft_succ_of_isVal (a : List (Option ℚ)) (m : ℕ)
    (h : isVal a m = true) : findValidLeft a (m + 1) = some m := by
  simp [findValidLeft, h]

theorem findValidLeft_succ_of_not (a : List (Option ℚ)) (m : ℕ)
    (h : isVal a m = false) : findValidLeft a (m + 1) = findValidLeft a m := by
  simp [findValidLeft, h]

theorem findValidLeft_spec (a : List (Option ℚ)) :
    ∀ i l, findValidLeft a i = some l → l < i ∧ isVal a l = true := by
  intro i
  induction i with
  | zero => intro l h; simp [findValidLeft] at h
  | succ m ih =>
    intro l h
    by_cases hv : isVal a m = true
    · rw [findValidLeft_succ_of_isVal a m hv] at h
      cases h
      exact ⟨Nat.lt_succ_self m, hv⟩
    · rw [findValidLeft_succ_of_not a m (by simpa using hv)] at h
      obtain ⟨h1, h2⟩ := ih l h
      exact ⟨Nat.lt_succ_of_lt h1, h2⟩

theorem firstValidFrom_isVal :
    ∀ (l : List (Option ℚ)) (k : ℕ), firstValidFrom l = some k →
      ((l[k]?).join).isSome = true := by
  intro l
  induction l with
  | nil => intro k h; simp [firstValidFrom] at h
  | cons o rest ih =>
    intro k h
    rw [firstValidFrom] at h
    by_cases ho : o.isSome
    · rw [if_pos ho] at h
      cases h
      simpa using ho
    · rw [if_neg ho] at h
      rcases Option.map_eq_some'.mp h with ⟨q, hq, rfl⟩
      simpa using ih q hq

theorem findValidRight_spec (a : List (Option ℚ)) (i r : ℕ)
    (h : findValidRight a i = some r) : i < r ∧ isVal a r = true := by
  unfold findValidRight at h
  rcases Option.map_eq_some'.mp h with ⟨q, hq, rfl⟩
  refine ⟨by omega, ?_⟩
  have h1 := firstValidFrom_isVal _ _ hq
  rw [List.getElem?_drop] at h1
  simpa [isVal] using h1

theorem findValidRight_congr (a b : List (Option ℚ)) (i : ℕ)
    (h : a.drop (i + 1) = b.drop (i + 1)) :
    findValidRight a i = findValidRight b i := by
  unfold findValidRight
  rw [h]

theorem findValidLeft_step (data : List (Option ℚ)) (m : ℕ)
    (h : data[m]? = some none) :
    findValidLeft data (m + 1) = findValidLeft data m :=
  findValidLeft_succ_of_not data m (isVal_of_missing data m h)

theorem findValidRight_step (data : List (Option ℚ)) (m : ℕ)
    (h : data[m + 1]? = some none) :
    findValidRight data m = findValidRight data (m + 1) := by
  unfold findValidRight
  have hm1 : m + 1 < data.length := by
    by_contra hc
    rw [List.getElem?_eq_none_iff.mpr (by omega)] at h
    exact Option.noConfusion h
  have hget : data[m + 1] = none := by
    have := List.getElem?_eq_getElem hm1
    rw [h] at this
    exact (Option.some.inj this).symm
  rw [List.drop_eq_getElem_cons hm1, hget, firstValidFrom]
  simp only [Option.isSome_none, Bool.false_eq_true, if_false, Option.map_map]
  rcases hf : firstValidFrom (data.drop (m + 1 + 1)) with _ | q
  · simp
  · simp only [Option.map_some', Function.comp]
    congr 1
    omega

theorem getElem?_eq_of_drop_eq (a b : List (Option ℚ)) (k j : ℕ)
    (h : a.drop k = b.drop k) (hkj : k ≤ j) : a[j]? = b[j]? := by
  have hj : j = k + (j - k) := by omega
  rw [hj, ← List.getElem?_drop a k (j - k), ← List.getElem?_drop b k (j - k), h]

theorem drop_succ_of_drop_eq (a b : List (Option ℚ)) (m : ℕ)
    (h : a.drop m = b.drop m) : a.drop (m + 1) = b.drop (m + 1) := by
  apply List.ext_getElem?
  intro t
  rw [List.getElem?_drop, List.getElem?_drop]
  exact getElem?_eq_of_drop_eq a b m (m + 1 + t) h (by omega)

theorem drop_set_of_lt (a : List (Option ℚ)) (k : ℕ) (v : Option ℚ) (j : ℕ)
    (h : k < j) : (a.set k v).drop j = a.drop j := by
  apply List.ext_getElem?
  intro t
  rw [List.getElem?_drop, List.getElem?_drop, List.getElem?_set_ne (by omega)]

theorem fillStep_of_present (a : List (Option ℚ)) (i : ℕ) (v : ℚ)
    (h : a[i]? = some (some v)) : fillStep a i = a := by
  unfold fillStep
  rw [h]

theorem fillStep_missing_both (a : List (Option ℚ)) (i l r : ℕ)
    (hm : a[i]? = some none) (hl : findValidLeft a i = some l)
    (hr : findValidRight a i = some r) :
    fillStep a i = a.set i (some (valAt a l +
      (valAt a r - valAt a l) * ((i : ℚ) - (l : ℚ)) / ((r : ℚ) - (l : ℚ)))) := by
  unfold fillStep
  rw [hm, hl, hr]

theorem fillStep_missing_left (a : List (Option ℚ)) (i l : ℕ)
    (hm : a[i]? = some none) (hl : findValidLeft a i = some l)
    (hr : findValidRight a i = none) :
    fillStep a i = a.set i (some (valAt a l)) := by
  unfold fillStep
  rw [hm, hl, hr]

theorem fillStep_missing_right (a : List (Option ℚ)) (i r : ℕ)
    (hm : a[i]? = some none) (hl : findValidLeft a i = none)
    (hr : findValidRight a i = some r) :
    fillStep a i = a.set i (some (valAt a r)) := by
  unfold fillStep
  rw [hm, hl, hr]

theorem fillStep_missing_none (a : List (Option ℚ)) (i : ℕ)
    (hm : a[i]? = some none) (hl : findValidLeft a i = none)
    (hr : findValidRight a i = none) :
    fillStep a i = a.set i (some 0) := by
  unfold fillStep
  rw [hm, hl, hr]

theorem interpolateSpec_of_present (data : List (Option ℚ)) (i : ℕ) (v : ℚ)
    (h : data[i]? = some (some v)) : interpolateSpec data i = v := by
  unfold interpolateSpec
  rw [h]
  rfl

theorem interpolateSpec_missing_both (data : List (Option ℚ)) (i l r : ℕ)
    (hm : data[i]? = some none) (hl : findValidLeft data i = some l)
    (hr : findValidRight data i = some r) :
    interpolateSpec data i = valAt data l +
      (valAt data r - valAt data l) * ((i : ℚ) - (l : ℚ)) / ((r : ℚ) - (l : ℚ)) := by
  unfold interpolateSpec
  rw [hm, hl, hr]
  rfl

theorem interpolateSpec_missing_left (data : List (Option ℚ)) (i l : ℕ)
    (hm : data[i]? = some none) (hl : findValidLeft data i = some l)
    (hr : findValidRight data i = none) :
    interpolateSpec data i = valAt data l := by
  unfold interpolateSpec
  rw [hm, hl, hr]
  rfl

theorem interpolateSpec_missing_right (data : List (Option ℚ)) (i r : ℕ)
    (hm : data[i]? = some none) (hl : findValidLeft data i = none)
    (hr : findValidRight data i = some r) :
    interpolateSpec data i = valAt data r := by
  unfold interpolateSpec
  rw [hm, hl, hr]
  rfl

theorem interpolateSpec_missing_none (data : List (Option ℚ)) (i : ℕ)
    (hm : data[i]? = some none) (hl : findValidLeft data i = none)
    (hr : findValidRight data i = none) :
    interpolateSpec data i = 0 := by
  unfold interpolateSpec
  rw [hm, hl, hr]
  rfl

theorem lerp_chain (dl dr lq km rq : ℚ) (hA : rq - lq ≠ 0) (hB : rq - km ≠ 0) :
    (dl + (dr - dl) * (km - lq) / (rq - lq)) +
      (dr - (dl + (dr - dl) * (km - lq) / (rq - lq))) * ((km + 1) - km) / (rq - km) =
    dl + (dr - dl) * ((km + 1) - lq) / (rq - lq) := by
  field_simp
  ring

theorem valAt_congr (a b : List (Option ℚ)) (j : ℕ) (h : a[j]? = b[j]?) :
    valAt a j = valAt b j := by
  simp [valAt, h]

theorem interp_invariant (data : List (Option ℚ)) :
    ∀ k, k ≤ data.length →
      ((List.range k).foldl fillStep data).length = data.length ∧
      ((List.range k).foldl fillStep data).drop k = data.drop k ∧
      (∀ j, j < k →
        ((List.range k).foldl fillStep data)[j]? =
          some (some (interpolateSpec data j))) := by
  intro k
  induction k with
  | zero =>
    intro _
    exact ⟨rfl, rfl, fun j hj => absurd hj (Nat.not_lt_zero j)⟩
  | succ m ih =>
    intro hm1
    obtain ⟨hlen, hdrop, hpref⟩ := ih (by omega)
    set a := (List.range m).foldl fillStep data with ha
    have hfold : (List.range (m + 1)).foldl fillStep data = fillStep a m := by
      rw [List.range_succ, List.foldl_append, List.foldl_cons, List.foldl_nil]
    rw [hfold]
    have hmlt : m < data.length := by omega
    have hsuffix : ∀ j, m ≤ j → a[j]? = data[j]? :=
      fun j hj => getElem?_eq_of_drop_eq a data m j hdrop hj
    have hdropm1 : a.drop (m + 1) = data.drop (m + 1) :=
      drop_succ_of_drop_eq a data m hdrop
    have hvr : findValidRight a m = findValidRight data m :=
      findValidRight_congr a data m hdropm1
    have ham : a[m]? = data[m]? := hsuffix m le_rfl
    have main : ∀ v : ℚ, v = interpolateSpec data m →
        (a.set m (some v)).length = data.length ∧
        (a.set m (some v)).drop (m + 1) = data.drop (m + 1) ∧
        (∀ j, j < m + 1 → (a.set m (some v))[j]? =
          some (some (interpolateSpec data j))) := by
      intro v hv
      refine ⟨by rw [List.length_set]; exact hlen, ?_, ?_⟩
      · rw [drop_set_of_lt a m _ (m + 1) (by omega)]
        exact hdropm1
      · intro j hj
        rcases Nat.lt_or_ge j m with hjm | hjm
        · rw [List.getElem?_set_ne (by omega)]
          exact hpref j hjm
        · have hjq : j = m := by omega
          subst hjq
          rw [List.getElem?_set_self (by rw [hlen]; exact hmlt), hv]
    rcases hDm : data[m]? with _ | om
    · exfalso
      rw [List.getElem?_eq_none_iff] at hDm
      omega
    rcases om with _ | v
    · -- data[m] is None: the loop fills the entry
      rw [hDm] at ham
      obtain rfl | ⟨m', rfl⟩ : m = 0 ∨ ∃ m', m = m' + 1 := by
        rcases m with _ | m'
        · exact Or.inl rfl
        · exact Or.inr ⟨m', rfl⟩
      · -- index 0: the left scan finds nothing
        rcases hR : findValidRight data 0 with _ | r
        · rw [fillStep_missing_none a 0 ham rfl (hvr.trans hR)]
          exact main 0 (interpolateSpec_missing_none data 0 hDm rfl hR).symm
        · rw [fillStep_missing_right a 0 (r := r) ham rfl (hvr.trans hR)]
          refine main (valAt a r) ?_
          have hr0 : 0 < r := (findValidRight_spec data 0 r hR).1
          rw [valAt_congr a data r (hsuffix r (by omega)),
            interpolateSpec_missing_right data 0 r hDm rfl hR]
      · -- index m' + 1: the left scan finds the repaired entry at m'
        have hpm' : a[m']? = some (some (interpolateSpec data m')) :=
          hpref m' (Nat.lt_succ_self m')
        have hL : findValidLeft a (m' + 1) = some m' :=
          findValidLeft_succ_of_isVal a m' (isVal_of_present a m' _ hpm')
        have hVa : valAt a m' = interpolateSpec data m' :=
          valAt_of_getElem a m' _ hpm'
        have hm'lt : m' < data.length := by omega
        rcases hDm' : data[m']? with _ | om'
        · exfalso
          rw [List.getElem?_eq_none_iff] at hDm'
          omega
        rcases om' with _ | w
        · -- the original entry at m' was also None
          have hLd : findValidLeft data (m' + 1) = findValidLeft data m' :=
            findValidLeft_step data m' hDm'
          have hRd : findValidRight data m' = findValidRight data (m' + 1) :=
            findValidRight_step data m' hDm
          rcases hR : findValidRight data (m' + 1) with _ | r
          · rw [fillStep_missing_left a (m' + 1) m' ham hL (hvr.trans hR)]
            refine main (valAt a m') ?_
            rcases hLL : findValidLeft data m' with _ | l
            · rw [hVa, interpolateSpec_missing_none data m' hDm' hLL (hRd.trans hR),
                interpolateSpec_missing_none data (m' + 1) hDm (hLd.trans hLL) hR]
            · rw [hVa, interpolateSpec_missing_left data m' l hDm' hLL (hRd.trans hR),
                interpolateSpec_missing_left data (m' + 1) l hDm (hLd.trans hLL) hR]
          · rw [fillStep_missing_both a (m' + 1) m' r ham hL (hvr.trans hR)]
            have hrgt : m' + 1 < r := (findValidRight_spec data (m' + 1) r hR).1
            have hvar : valAt a r = valAt data r :=
              valAt_congr a data r (hsuffix r (by omega))
            refine main _ ?_
            rcases hLL : findValidLeft data m' with _ | l
            · rw [hVa, hvar,
                interpolateSpec_missing_right data m' r hDm' hLL (hRd.trans hR),
                interpolateSpec_missing_right data (m' + 1) r hDm (hLd.trans hLL) hR]
              ring
            · have hlm : l < m' := (findValidLeft_spec data m' l hLL).1
              have hAq : (r : ℚ) - (l : ℚ) ≠ 0 := by
                have : (l : ℚ) < (r : ℚ) := by exact_mod_cast (by omega : l < r)
                exact sub_ne_zero_of_ne (ne_of_gt this)
              have hBq : (r : ℚ) - (m' : ℚ) ≠ 0 := by
                have : (m' : ℚ) < (r : ℚ) := by exact_mod_cast (by omega : m' < r)
                exact sub_ne_zero_of_ne (ne_of_gt this)
              rw [hVa, hvar,
                interpolateSpec_missing_both data m' l r hDm' hLL (hRd.trans hR),
                interpolateSpec_missing_both data (m' + 1) l r hDm (hLd.trans hLL) hR]
              push_cast
              exact lerp_chain (valAt data l) (valAt data r) (l : ℚ) (m' : ℚ) (r : ℚ) hAq hBq
        · -- the original entry at m' was present
          have hLdata : findValidLeft data (m' + 1) = some m' :=
            findValidLeft_succ_of_isVal data m' (isVal_of_present data m' w hDm')
          have hw : valAt data m' = w := valAt_of_getElem data m' w hDm'
          rcases hR : findValidRight data (m' + 1) with _ | r
          · rw [fillStep_missing_left a (m' + 1) m' ham hL (hvr.trans hR)]
            refine main (valAt a m') ?_
            rw [hVa, interpolateSpec_of_present data m' w hDm',
              interpolateSpec_missing_left data (m' + 1) m' hDm hLdata hR, hw]
          · rw [fillStep_missing_both a (m' + 1) m' r ham hL (hvr.trans hR)]
            have hrgt : m' + 1 < r := (findValidRight_spec data (m' + 1) r hR).1
            have hvar : valAt a r = valAt data r :=
              valAt_congr a data r (hsuffix r (by omega))
            refine main _ ?_
            rw [hVa, hvar, interpolateSpec_of_present data m' w hDm',
              interpolateSpec_missing_both data (m' + 1) m' r hDm hLdata hR, hw]
    · -- data[m] is present: the loop leaves the array unchanged
      rw [hDm] at ham
      rw [fillStep_of_present a m v ham]
      refine ⟨hlen, hdropm1, ?_⟩
      intro j hj
      rcases Nat.lt_or_ge j m with hjm | hjm
      · exact hpref j hjm
      · have hjq : j = m := by omega
        subst hjq
        rw [ham, interpolateSpec_of_present data j v hDm]

theorem interpolate_missing_eq_spec (data : List (Option ℚ)) :
    interpolate_missing data =
      (List.range data.length).map (fun i => some (interpolateSpec data i)) := by
  obtain ⟨hlen0, -, hpref0⟩ := interp_invariant data data.length le_rfl
  have hlen : (interpolate_missing data).length = data.length := hlen0
  have hpref : ∀ j, j < data.length →
      (interpolate_missing data)[j]? = some (some (interpolateSpec data j)) := hpref0
  apply List.ext_getElem?
  intro j
  rcases Nat.lt_or_ge j data.length with hj | hj
  · rw [hpref j hj, List.getElem?_map, List.getElem?_range hj, Option.map_some']
  · rw [List.getElem?_eq_none_iff.mpr (by rw [hlen]; exact hj),
      List.getElem?_eq_none_iff.mpr
        (by rw [List.length_map, List.length_range]; exact hj)]

/-- C2: `interpolate_missing` replaces every absent sample exactly as the
spec describes — linear interpolation by index-fraction between the
nearest valid neighbours when both exist, flat copy when only one
exists, `0` everywhere when the input holds no valid value — and the two
spec examples hold: `[100, None, None, 130] ↦ [100, 110, 120, 130]` and
`[None, None, 50] ↦ [50, 50, 50]`. -/
theorem C2_interpolate_missing :
    (∀ data : List (Option ℚ), interpolate_missing data =
      (List.range data.length).map (fun i => some (interpolateSpec data i))) ∧
    interpolate_missing [some 100, none, none, some 130] =
      [some 100, some 110, some 120, some 130] ∧
    interpolate_missing [none, none, some 50] = [some 50, some 50, some 50] := by
  refine ⟨interpolate_missing_eq_spec, ?_, ?_⟩
  · have h4 : List.range 4 = [0, 1, 2, 3] := by decide
    simp only [interpolate_missing, List.length_cons, List.length_nil]
    norm_num [h4, fillStep, findValidLeft, findValidRight, firstValidFrom, valAt, isVal]
  · have h3 : List.range 3 = [0, 1, 2] := by decide
    simp only [interpolate_missing, List.length_cons, List.length_nil]
    norm_num [h3, fillStep, findValidLeft, findValidRight, firstValidFrom, valAt, isVal]

theorem smooth_mem_nonneg (l : List ℚ) (w : ℕ) (hl : ∀ x ∈ l, 0 ≤ x) :
    ∀ y ∈ smooth l w, 0 ≤ y := by
  intro y hy
  rw [smooth] at hy
  simp only [List.mem_map, List.mem_range] at hy
  obtain ⟨i, _, rfl⟩ := hy
  apply div_nonneg
  · apply List.sum_nonneg
    intro x hx
    exact hl x (List.drop_subset _ _ (List.take_subset _ _ hx))
  · exact Nat.cast_nonneg _

/-- C10: the full preprocessing chain (`interpolate_missing`, then
clamp-to-zero, then `smooth_elevation` with window 3) preserves the
length of the input, produces only non-negative values (the mean of any
window of clamped values stays at or above sea level), and the
interpolation stage leaves every entry present. -/
theorem C10_preprocess_invariants (data : List (Option ℚ)) :
    (preprocess data).length = data.length ∧
    (preprocess data).all (fun x => decide (0 ≤ x)) = true ∧
    (interpolate_missing data).all (fun o => o.isSome) = true := by
  have hinterp := interpolate_missing_eq_spec data
  have hlen1 : (interpolate_missing data).length = data.length := by
    rw [hinterp, List.length_map, List.length_range]
  refine ⟨?_, ?_, ?_⟩
  · rw [preprocess, smooth_elevation_eq, smooth_length, clamp_sea_level,
      List.length_map, unwrapElevations, List.length_map, hlen1]
  · rw [List.all_eq_true]
    intro x hx
    rw [decide_eq_true_eq]
    have hx' : x ∈ smooth (clamp_sea_level (unwrapElevations (interpolate_missing data))) 3 := by
      rw [preprocess, smooth_elevation_eq] at hx
      exact hx
    refine smooth_mem_nonneg _ 3 ?_ x hx'
    intro y hy
    rw [clamp_sea_level] at hy
    simp only [List.mem_map] at hy
    obtain ⟨z, _, rfl⟩ := hy
    exact le_max_left 0 z
  · rw [hinterp, List.all_eq_true]
    intro o ho
    simp only [List.mem_map, List.mem_range] at ho
    obtain ⟨i, _, rfl⟩ := ho
    rfl

theorem radians_degrees (x : ℝ) : radians (degrees x) = x := by
  rw [radians, degrees]
  field_simp

theorem degrees_radians (x : ℝ) : degrees (radians x) = x := by
  rw [radians, degrees]
  field_simp

theorem mapM_option_eq_some {α β : Type} (f : α → Option β) (g : α → β) :
    ∀ l : List α, (∀ x ∈ l, f x = some (g x)) → l.mapM f = some (l.map g) := by
  intro l
  induction l with
  | nil => intro _; rfl
  | cons x xs ih =>
    intro h
    rw [List.mapM_cons, h x (List.mem_cons_self x xs),
      ih (fun y hy => h y (List.mem_cons_of_mem x hy))]
    rfl

theorem generate_line_points_eq (lat1 lon1 lat2 lon2 : ℝ) (n : ℕ)
    (hn : (n : ℝ) - 1 ≠ 0) :
    generate_line_points lat1 lon1 lat2 lon2 n =
      some ((List.range n).map (fun (i : ℕ) =>
        (lat1 + (lat2 - lat1) * (i : ℝ) / ((n : ℝ) - 1),
         lon1 + (lon2 - lon1) * (i : ℝ) / ((n : ℝ) - 1)))) := by
  unfold generate_line_points
  apply mapM_option_eq_some
  intro i _
  simp only [pydivR, if_neg hn]
  rfl

theorem generate_line_points_zero (lat1 lon1 lat2 lon2 : ℝ) :
    generate_line_points lat1 lon1 lat2 lon2 0 = some [] := rfl

theorem generate_line_points_one (lat1 lon1 lat2 lon2 : ℝ) :
    generate_line_points lat1 lon1 lat2 lon2 1 = none := by
  unfold generate_line_points
  have hr1 : List.range 1 = [0] := rfl
  rw [hr1, List.mapM_cons]
  have h1 : pydivR ((lat2 - lat1) * ((0 : ℕ) : ℝ)) (((1 : ℕ) : ℝ) - 1) = none := by
    rw [pydivR, if_pos (by norm_num)]
  rw [h1]
  rfl

/-- C5: the claim states the builder fails with `InvalidArgument` exactly
when `n < 2`.  Counterexample: `n = 0` (which is `< 2`) succeeds,
returning the empty point list — Python's `range(0)` never evaluates the
division, and the code performs no argument validation at all. -/
theorem C5_counterexample :
    generate_cross_section_points 35.3606 138.7274 0 20 0 = some [] := by
  unfold generate_cross_section_points
  exact generate_line_points_zero _ _ _ _

/-- C5 (amended): `generate_cross_section_points` fails — with a
`ZeroDivisionError` from `i / (n - 1)`, the code has no `InvalidArgument`
check — exactly when `n = 1`; it succeeds for `n = 0` (empty list) and
for every `n ≥ 2`. -/
theorem C5_amended (clat clon brg L : ℝ) (n : ℕ) :
    generate_cross_section_points clat clon brg L n = none ↔ n = 1 := by
  unfold generate_cross_section_points
  rcases n with _ | n
  · rw [generate_line_points_zero]
    simp
  · rcases n with _ | n
    · rw [generate_line_points_one]
      simp
    · have hpos : (0 : ℝ) < ((n + 2 : ℕ) : ℝ) - 1 := by
        push_cast
        have : (0 : ℝ) ≤ (n : ℝ) := Nat.cast_nonneg n
        linarith
      rw [generate_line_points_eq _ _ _ _ (n + 2) (ne_of_gt hpos)]
      simp

/-- C7: for `n ≥ 2` the built cross-section is exactly the list whose
`i`-th point interpolates latitude and longitude independently between
`dest_point(center, bearing - 90, L/2)` and
`dest_point(center, bearing + 90, L/2)` with weight `i/(n-1)`; in
particular `point[0]` is the left endpoint and `point[n-1]` the right
endpoint. -/
theorem C7_cross_section_lerp (clat clon brg L : ℝ) (n : ℕ) (h2 : 2 ≤ n) :
    generate_cross_section_points clat clon brg L n =
      some ((List.range n).map (fun (i : ℕ) =>
        ((dest_point clat clon (brg - 90) (L / 2)).1 +
          ((dest_point clat clon (brg + 90) (L / 2)).1 -
            (dest_point clat clon (brg - 90) (L / 2)).1) * (i : ℝ) / ((n : ℝ) - 1),
         (dest_point clat clon (brg - 90) (L / 2)).2 +
          ((dest_point clat clon (brg + 90) (L / 2)).2 -
            (dest_point clat clon (brg - 90) (L / 2)).2) * (i : ℝ) / ((n : ℝ) - 1)))) ∧
    ((generate_cross_section_points clat clon brg L n).getD [])[0]? =
      some (dest_point clat clon (brg - 90) (L / 2)) ∧
    ((generate_cross_section_points clat clon brg L n).getD [])[n - 1]? =
      some (dest_point clat clon (brg + 90) (L / 2)) := by
  have h2r : (2 : ℝ) ≤ (n : ℝ) := by exact_mod_cast h2
  have hne : (n : ℝ) - 1 ≠ 0 := by intro hc; linarith
  have hmain : generate_cross_section_points clat clon brg L n =
      some ((List.range n).map (fun (i : ℕ) =>
        ((dest_point clat clon (brg - 90) (L / 2)).1 +
          ((dest_point clat clon (brg + 90) (L / 2)).1 -
            (dest_point clat clon (brg - 90) (L / 2)).1) * (i : ℝ) / ((n : ℝ) - 1),
         (dest_point clat clon (brg - 90) (L / 2)).2 +
          ((dest_point clat clon (brg + 90) (L / 2)).2 -
            (dest_point clat clon (brg - 90) (L / 2)).2) * (i : ℝ) / ((n : ℝ) - 1)))) := by
    unfold generate_cross_section_points
    exact generate_line_points_eq _ _ _ _ n hne
  refine ⟨hmain, ?_, ?_⟩
  · rw [hmain, Option.getD_some, List.getElem?_map, List.getElem?_range (by omega),
      Option.map_some']
    simp
  · rw [hmain, Option.getD_some, List.getElem?_map, List.getElem?_range (by omega),
      Option.map_some']
    have hc : ((n - 1 : ℕ) : ℝ) = (n : ℝ) - 1 := by
      rw [Nat.cast_sub (by omega)]
      norm_num
    rw [hc]
    have hx : ∀ a b : ℝ, a + (b - a) * ((n : ℝ) - 1) / ((n : ℝ) - 1) = b := by
      intro a b
      field_simp
    rw [hx, hx]

/-- Witness for C7 at a concrete two-point cross-section. -/
theorem C7_cross_section_lerp_witness :
    ((generate_cross_section_points 35 138 0 20 2).getD [])[0]? =
      some (dest_point 35 138 ((0 : ℝ) - 90) (20 / 2)) :=
  (C7_cross_section_lerp 35 138 0 20 2 (by norm_num)).2.1

theorem dest_point_zero (lat lon brg : ℝ) (h1 : -90 ≤ lat) (h2 : lat ≤ 90) :
    dest_point lat lon brg 0 = (lat, lon) := by
  have hpi := Real.pi_pos
  have hb1 : -(Real.pi / 2) ≤ radians lat := by
    rw [radians]
    nlinarith
  have hb2 : radians lat ≤ Real.pi / 2 := by
    rw [radians]
    nlinarith
  have harc : Real.arcsin (Real.sin (radians lat)) = radians lat :=
    Real.arcsin_sin hb1 hb2
  have hatan : atan2 0 (1 - Real.sin (radians lat) * Real.sin (radians lat)) = 0 := by
    rw [atan2]
    have h0 : ((0 : ℝ) : ℂ) * Complex.I = 0 := by simp
    rw [h0, add_zero]
    exact Complex.arg_ofReal_of_nonneg
      (by nlinarith [Real.sin_sq_add_cos_sq (radians lat),
        sq_nonneg (Real.cos (radians lat))])
  simp only [dest_point, zero_div, Real.cos_zero, Real.sin_zero, mul_one, mul_zero,
    zero_mul, add_zero, harc, hatan, degrees_radians]

/-- C8 (amended): the claimed round trip holds exactly at distance 0 for
any latitude in `[-90, 90]` — `dest_point` at distance 0 returns its
origin, so chaining it with bearing `θ + 180` does too.  For general
`d ≥ 0` the claim fails (see the counterexample): `θ + 180` is the
reversed initial bearing, not the back-azimuth at the destination, so
the error grows with `d`. -/
theorem C8_amended (lat lon brg : ℝ) (h1 : -90 ≤ lat) (h2 : lat ≤ 90) :
    dest_point (dest_point lat lon brg 0).1 (dest_point lat lon brg 0).2
      (brg + 180) 0 = (lat, lon) := by
  rw [dest_point_zero lat lon brg h1 h2]
  exact dest_point_zero lat lon (brg + 180) h1 h2

/-- Witness for C8 (amended) at origin `(45, 7)`, bearing 123. -/
theorem C8_amended_witness :
    dest_point (dest_point 45 7 123 0).1 (dest_point 45 7 123 0).2
      (123 + 180) 0 = (45, 7) :=
  C8_amended 45 7 123 (by norm_num) (by norm_num)

set_option maxHeartbeats 1000000 in
/-- C8: the claim states the round trip
`dest_point(dest_point(O, θ, d), θ + 180, d) ≈ O` holds for *every*
`d ≥ 0` within about `1e-6` degrees.  Counterexample: from
`O = (60, 0)` with bearing 90 and `d = 1000` km, the returned latitude
differs from 60 by more than `1/2` a degree (the latitude comes back as
`degrees (arcsin ((√3/2)·cos²(1000/6371))) < 59.5`). -/
theorem C8_counterexample :
    1 / 2 < |(dest_point (dest_point 60 0 90 1000).1 (dest_point 60 0 90 1000).2
      (90 + 180) 1000).1 - 60| := by
  have hpi := Real.pi_pos
  have hpi6 := Real.pi_gt_d6
  have hpi2 := Real.pi_lt_d2
  set δ : ℝ := 1000 / 6371 with hδdef
  have hδ0 : (0 : ℝ) ≤ δ := by rw [hδdef]; norm_num
  have hδ1 : δ ≤ 1 := by rw [hδdef]; norm_num
  have hcos0 : (0 : ℝ) ≤ Real.cos δ := by
    apply Real.cos_nonneg_of_mem_Icc
    constructor
    · nlinarith
    · nlinarith
  have hcos1 : Real.cos δ ≤ 1 := Real.cos_le_one δ
  have hs3 : Real.sqrt 3 ^ 2 = 3 := Real.sq_sqrt (by norm_num)
  have hs3nn : (0 : ℝ) ≤ Real.sqrt 3 := Real.sqrt_nonneg 3
  have hs3ub : Real.sqrt 3 ≤ 1.7320509 := by nlinarith
  have hs3lb : (1.732 : ℝ) ≤ Real.sqrt 3 := by nlinarith
  have hX1le : Real.sqrt 3 / 2 * Real.cos δ ≤ 1 := by nlinarith
  have hX1ge : (-1 : ℝ) ≤ Real.sqrt 3 / 2 * Real.cos δ := by nlinarith
  have h60 : radians 60 = Real.pi / 3 := by rw [radians]; ring
  have h90 : radians 90 = Real.pi / 2 := by rw [radians]; ring
  have h270 : radians (90 + 180) = Real.pi + Real.pi / 2 := by rw [radians]; ring
  have hcos270 : Real.cos (Real.pi + Real.pi / 2) = 0 := by
    rw [Real.cos_add]
    simp
  have hR : (6371.0 : ℝ) = 6371 := by norm_num
  have hfirst : (dest_point 60 0 90 1000).1 =
      degrees (Real.arcsin (Real.sqrt 3 / 2 * Real.cos δ)) := by
    simp only [dest_point, hR, h60, h90, Real.cos_pi_div_two, Real.sin_pi_div_three,
      mul_zero, add_zero, ← hδdef]
  have hφ : radians ((dest_point 60 0 90 1000).1) =
      Real.arcsin (Real.sqrt 3 / 2 * Real.cos δ) := by
    rw [hfirst, radians_degrees]
  have hsinφ : Real.sin (Real.arcsin (Real.sqrt 3 / 2 * Real.cos δ)) =
      Real.sqrt 3 / 2 * Real.cos δ := Real.sin_arcsin hX1ge hX1le
  have hsecond : (dest_point (dest_point 60 0 90 1000).1 (dest_point 60 0 90 1000).2
      (90 + 180) 1000).1 =
      degrees (Real.arcsin (Real.sqrt 3 / 2 * Real.cos δ * Real.cos δ)) := by
    simp only [dest_point, hR, ← hδdef, h60, h90, h270, hcos270, Real.cos_pi_div_two,
      Real.sin_pi_div_three, radians_degrees, hsinφ, mul_zero, add_zero]
  have hcosub : Real.cos δ ≤ 0.98772 := by
    have hb := Real.cos_bound (x := δ) (by rwa [abs_of_nonneg hδ0])
    have hb2 := (abs_le.mp hb).2
    rw [abs_of_nonneg hδ0] at hb2
    have hv : (1 : ℝ) - δ ^ 2 / 2 + δ ^ 4 * (5 / 96) ≤ 0.98772 := by
      rw [hδdef]
      norm_num
    linarith
  have hcc : Real.cos δ * Real.cos δ ≤ 0.98772 * 0.98772 :=
    mul_le_mul hcosub hcosub hcos0 (by norm_num)
  have hccnn : (0 : ℝ) ≤ Real.cos δ * Real.cos δ := mul_nonneg hcos0 hcos0
  have hBle : Real.sqrt 3 / 2 * Real.cos δ * Real.cos δ ≤ 0.845 := by
    nlinarith [hcc, hccnn, hs3ub, hs3nn]
  have hc01 : (0.99994 : ℝ) ≤ Real.cos (1 / 100) := by
    have hb := Real.cos_bound (x := 1 / 100)
      (by rw [abs_of_nonneg (by norm_num : (0:ℝ) ≤ 1/100)]; norm_num)
    have hb1 := (abs_le.mp hb).1
    rw [abs_of_nonneg (by norm_num : (0:ℝ) ≤ 1/100)] at hb1
    have : (1 : ℝ) - (1/100) ^ 2 / 2 - (1/100) ^ 4 * (5 / 96) ≥ 0.99994 := by norm_num
    linarith
  have hs01 : Real.sin (1 / 100) ≤ 1 / 100 := le_of_lt (Real.sin_lt (by norm_num))
  have hsinlb : (0.86 : ℝ) ≤ Real.sin (Real.pi / 3 - 1 / 100) := by
    rw [Real.sin_sub, Real.sin_pi_div_three, Real.cos_pi_div_three]
    have hp := mul_le_mul hs3lb hc01 (by norm_num) hs3nn
    linarith
  have harc_le : Real.arcsin (Real.sqrt 3 / 2 * Real.cos δ * Real.cos δ) ≤
      Real.pi / 3 - 1 / 100 := by
    have h1 : Real.sqrt 3 / 2 * Real.cos δ * Real.cos δ ≤
        Real.sin (Real.pi / 3 - 1 / 100) := by linarith
    calc Real.arcsin (Real.sqrt 3 / 2 * Real.cos δ * Real.cos δ)
        ≤ Real.arcsin (Real.sin (Real.pi / 3 - 1 / 100)) := Real.monotone_arcsin h1
      _ = Real.pi / 3 - 1 / 100 := Real.arcsin_sin (by nlinarith) (by nlinarith)
  have hdeg_lt : degrees (Real.arcsin (Real.sqrt 3 / 2 * Real.cos δ * Real.cos δ)) < 59.5 := by
    rw [degrees, div_lt_iff₀ hpi]
    nlinarith [harc_le, hpi2]
  rw [hsecond]
  calc (1 / 2 : ℝ)
      < 60 - degrees (Real.arcsin (Real.sqrt 3 / 2 * Real.cos δ * Real.cos δ)) := by
        linarith
    _ ≤ |60 - degrees (Real.arcsin (Real.sqrt 3 / 2 * Real.cos δ * Real.cos δ))| :=
        le_abs_self _
    _ = |degrees (Real.arcsin (Real.sqrt 3 / 2 * Real.cos δ * Real.cos δ)) - 60| :=
        abs_sub_comm _ _
